import Mathlib

/-!
Verification of the Jarvis assistant core (Python sources under `lambda/`)
against its natural-language specification.

The Python code is shallowly embedded: Pydantic models become structures,
mutable objects become explicit state passing, `datetime` values become
integer ticks (seconds for fact timestamps, an abstract tick elsewhere),
exceptions become `Except`/`Option`, and external collaborators (the
Supabase store, the OpenAI completion service, JSON codecs) become oracle
functions bundled in an `Env` record.  Python strings are modelled either
as `String` or as `List Char` (for index-based slicing code).
-/

namespace Jarvis

/-! ## Data model (`memory/models.py`) -/

/-- The `Importance` enumeration (`models.py` lines 16-20). -/
inductive Importance
  | low
  | normal
  | high
  | critical
deriving DecidableEq, Repr

/-- The `UserRole` enumeration (`models.py` lines 8-13).  The five members in the
source are `adult`, `child`, `elderly`, `maid`, `guest`. -/
inductive UserRole
  | adult
  | child
  | elderly
  | maid
  | guest
deriving DecidableEq, Repr

/-- The string value of each `UserRole` member, as declared in `models.py`. -/
def UserRole.value : UserRole → String
  | .adult => "adult"
  | .child => "child"
  | .elderly => "elderly"
  | .maid => "maid"
  | .guest => "guest"

/-- Pydantic validation of a role string: `UserRole(s)` succeeds exactly when
`s` is the value of one of the enumeration members, otherwise it raises a
validation error (modelled as `none`). -/
def userRoleOfString (s : String) : Option UserRole :=
  if s = "adult" then some .adult
  else if s = "child" then some .child
  else if s = "elderly" then some .elderly
  else if s = "maid" then some .maid
  else if s = "guest" then some .guest
  else none

/-- The `Message` model (`models.py` lines 32-39).  `timestamp` is an abstract
clock tick (the code stamps `datetime.utcnow()`). -/
structure Message where
  id : Option String := none
  role : String
  content : String
  tool_name : Option String := none
  tool_call_id : Option String := none
  timestamp : Nat := 0
deriving DecidableEq, Repr

/-- The `Conversation` model (`models.py` lines 42-50). -/
structure Conversation where
  id : Option String := none
  user_id : String
  alexa_session_id : Option String := none
  messages : List Message := []
  started_at : Nat := 0
  ended_at : Option Nat := none
  summary : Option String := none
deriving DecidableEq, Repr

/-- The `UserFact` model (`models.py` lines 53-63).  Timestamps are integer
seconds since an epoch, so that `timedelta.days` arithmetic is exact. -/
structure UserFact where
  id : Option String := none
  user_id : String
  fact : String
  category : String
  importance : Importance := .normal
  source_conversation : Option String := none
  created_at : Int := 0
  last_referenced : Option Int := none
  reference_count : Nat := 0
deriving DecidableEq, Repr

/-- The `UserProfile` model (`models.py` lines 86-109).  The optional
`medical_info` payload is irrelevant to every claim and is omitted. -/
structure UserProfile where
  id : String
  name : String
  role : UserRole := .adult
  age : Option Nat := none
  voice_id : Option String := none
  preferred_language : String := "english"
  preferred_response_length : String := "medium"
  daily_order_limit : Option Int := none
  requires_approval : Bool := false
  can_approve_orders : Bool := false
  total_conversations : Nat := 0
  created_at : Option Nat := none
  last_interaction : Option Nat := none
deriving DecidableEq, Repr

/-! ## Python primitives used by the embedded code -/

/-- Python list slice `l[-n:]`.  For `n > 0` this is the suffix of the last
`n` elements; for `n = 0` it is `l[0:]`, i.e. the whole list (Python has no
negative zero, so `l[-0:] = l[0:]`). -/
def pyLastSlice (n : Nat) (l : List α) : List α :=
  if n = 0 then l else l.drop (l.length - n)

/-- Python truthiness of an optional string: `None` and `""` are falsy. -/
def pyTruthyOptStr : Option String → Bool
  | some s => s ≠ ""
  | none => false

/-- Python `x or d` on an optional string (used for `user_id or default`,
`content or fallback`). -/
def pyOrStr (x : Option String) (d : String) : String :=
  match x with
  | some s => if s = "" then d else s
  | none => d

/-! ## Short-term memory (`memory/short_term.py`) -/

/-- The mutable state of `ShortTermMemory` (`short_term.py` lines 12-19):
the configured cap, the active conversation (if any) and the unsaved
message buffer.  The storage handle lives in the environment. -/
structure ShortTermMemory where
  max_messages : Nat
  current_conversation : Option Conversation := none
  message_buffer : List Message := []
deriving DecidableEq, Repr

/-- The `ShortTermMemory.add_message` (`short_term.py` lines 43-68): build the
`Message`, and if a conversation is active append it to the conversation
log and the unsaved buffer, then trim the log to `messages[-max_messages:]`
whenever its length exceeds `max_messages`.  Returns the built message and
the updated state. -/
def ShortTermMemory.add_message (stm : ShortTermMemory) (role content : String)
    (tool_name tool_call_id : Option String) (now : Nat) :
    Message × ShortTermMemory :=
  let message : Message :=
    { role := role, content := content, tool_name := tool_name,
      tool_call_id := tool_call_id, timestamp := now }
  match stm.current_conversation with
  | some conv =>
      let appended := conv.messages ++ [message]
      let msgs :=
        if appended.length > stm.max_messages then
          pyLastSlice stm.max_messages appended
        else appended
      (message,
        { stm with
            current_conversation := some { conv with messages := msgs },
            message_buffer := stm.message_buffer ++ [message] })
  | none => (message, stm)

/-- The `ShortTermMemory.end_conversation` (`short_term.py` lines 104-121): if a
conversation is active, stamp `ended_at` and `summary`, hand it to the
store (returned here as the persisted conversation) and clear the state. -/
def ShortTermMemory.end_conversation (stm : ShortTermMemory)
    (summary : Option String) (now : Nat) :
    ShortTermMemory × Option Conversation :=
  match stm.current_conversation with
  | none => (stm, none)
  | some conv =>
      let saved := { conv with ended_at := some now, summary := summary }
      ({ stm with current_conversation := none, message_buffer := [] },
        some saved)

/-- The message log of the active conversation (empty when idle). -/
def ShortTermMemory.currentLog (stm : ShortTermMemory) : List Message :=
  match stm.current_conversation with
  | some conv => conv.messages
  | none => []

/-- One `add_message` call's arguments. -/
structure AddCall where
  role : String
  content : String
  tool_name : Option String := none
  tool_call_id : Option String := none
  now : Nat := 0
deriving DecidableEq, Repr

/-- The `Message` that `add_message` constructs for a call. -/
def mkMessage (c : AddCall) : Message :=
  { role := c.role, content := c.content, tool_name := c.tool_name,
    tool_call_id := c.tool_call_id, timestamp := c.now }

/-- Run a sequence of `add_message` calls against a short-term memory. -/
def runAdds (stm : ShortTermMemory) (calls : List AddCall) : ShortTermMemory :=
  calls.foldl
    (fun s c => (s.add_message c.role c.content c.tool_name c.tool_call_id c.now).2)
    stm

/-- The suffix of the most recent `n` elements of a list (for `n` larger
than the list the whole list). -/
def lastN (n : Nat) (l : List α) : List α :=
  l.drop (l.length - n)

/-! ## Relevance scoring (`storage/supabase_client.py`, `get_relevant_facts`) -/

/-- Collect the maximal whitespace-free runs of a character sequence, the
accumulator holding the (reversed) run in progress — the behaviour of
Python `str.split()` with no separator: split on whitespace runs, dropping
empty pieces. -/
def splitWsAux : List Char → List Char → List (List Char)
  | [], cur => if cur.isEmpty then [] else [cur.reverse]
  | c :: cs, cur =>
      if c.isWhitespace then
        if cur.isEmpty then splitWsAux cs []
        else cur.reverse :: splitWsAux cs []
      else splitWsAux cs (c :: cur)

/-- The distinct words of a string, case-insensitively: Python
`set(s.lower().split())`.  Words are kept as character sequences; the set
is modelled as the deduplicated word list (only membership and the count
of shared distinct words are ever used). -/
def pyWords (s : String) : List (List Char) :=
  (splitWsAux (s.toList.map Char.toLower) []).dedup

/-- The score the loop body of `get_relevant_facts` (`supabase_client.py`
lines 165-186) computes for one fact: `+2` per distinct shared word, `+5`
for critical importance else `+3` for high, `+2` when `last_referenced` is
set and `(utcnow() - last_referenced).days < 7` (`timedelta.days` is floor
division of the elapsed seconds by 86400). -/
def factScore (now : Int) (context_words : List (List Char)) (f : UserFact) : Nat :=
  let fact_words := pyWords f.fact
  let overlap := (context_words.filter (fun w => fact_words.contains w)).length
  let score := overlap * 2
  let score :=
    if f.importance = .critical then score + 5
    else if f.importance = .high then score + 3
    else score
  match f.last_referenced with
  | some ref => if Int.fdiv (now - ref) 86400 < 7 then score + 2 else score
  | none => score

/-- Stable insertion of a scored fact into a descending-sorted list: the
new element goes before the first strictly-smaller score and after all
scores `≥` its own. -/
def insertByScore (x : Nat × UserFact) :
    List (Nat × UserFact) → List (Nat × UserFact)
  | [] => [x]
  | y :: ys => if x.1 ≥ y.1 then x :: y :: ys else y :: insertByScore x ys

/-- Stable descending sort by score.  Models Python
`scored_facts.sort(key=lambda x: x[0], reverse=True)`: CPython's sort is
stable and `reverse=True` keeps the original relative order of equal keys,
which is exactly what this insertion sort produces. -/
def sortByScoreDesc : List (Nat × UserFact) → List (Nat × UserFact)
  | [] => []
  | x :: xs => insertByScore x (sortByScoreDesc xs)

/-- The `SupabaseStorage.get_relevant_facts` (`supabase_client.py` lines
149-192), parameterised by the fact batch the store returned for
`self.get_facts(user_id, limit=100)` (most recent first) and by the
current time: score every fact, keep scores `> 0`, sort descending
(stable), return the top `limit`. -/
def get_relevant_facts (now : Int) (all_facts : List UserFact)
    (context : String) (limit : Nat) : List UserFact :=
  if all_facts.isEmpty then []
  else
    let context_words := pyWords context
    let scored_facts :=
      (all_facts.map (fun f => (factScore now context_words f, f))).filter
        (fun p => 0 < p.1)
    ((sortByScoreDesc scored_facts).take limit).map Prod.snd

/-- The fact score as the specification words it: "+2 per distinct word
shared between query and fact text (case-insensitive,
whitespace-tokenized), +5 if importance=critical, +3 if importance=high,
+2 if the fact was referenced within the last 7 days" — a sum of four
independent terms. -/
def specFactScore (now : Int) (query : String) (f : UserFact) : Nat :=
  2 * ((pyWords query).filter (fun w => (pyWords f.fact).contains w)).length
    + (if f.importance = .critical then 5 else 0)
    + (if f.importance = .high then 3 else 0)
    + (match f.last_referenced with
       | some ref => if Int.fdiv (now - ref) 86400 < 7 then 2 else 0
       | none => 0)

/-- The fact-ranking pipeline as the specification words it: score each
fetched fact, exclude facts scoring 0, sort descending by score with ties
keeping fetch order, return the top `limit`. -/
def specRelevantFacts (now : Int) (all_facts : List UserFact)
    (query : String) (limit : Nat) : List UserFact :=
  ((sortByScoreDesc
      ((all_facts.map (fun f => (specFactScore now query f, f))).filter
        (fun p => p.1 ≠ 0))).take limit).map Prod.snd

/-! ## Voice-length truncation (`agent/core.py`, `_truncate_for_voice`) -/

/-- Python `str.rfind(c)`: the highest index at which `c` occurs, or `-1`
when it does not occur. -/
def pyRfind : List Char → Char → Int
  | [], _ => -1
  | a :: rest, c =>
      if pyRfind rest c ≥ 0 then pyRfind rest c + 1
      else if a = c then 0
      else -1

/-- The `break_point = max(last_period, last_question, last_exclaim)`
(`core.py` lines 261-265): the rightmost position of `.`, `?` or `!`, or
`-1` when none occurs. -/
def maxPunct (cs : List Char) : Int :=
  max (pyRfind cs '.') (max (pyRfind cs '?') (pyRfind cs '!'))

/-- The `JarvisAgent._truncate_for_voice` (`core.py` lines 251-270) with the
configured budget `settings.max_response_length` as the parameter `B` and
the text as its character sequence: return short text unchanged; otherwise
take the first `B` characters, find the rightmost `.`/`?`/`!` in that
slice, cut there inclusive when that index exceeds `B // 2`, else append
`"..."` to the slice. -/
def truncate_for_voice (B : Nat) (text : List Char) : List Char :=
  if text.length ≤ B then text
  else
    let truncated := text.take B
    let break_point := maxPunct truncated
    if break_point > ((B / 2 : Nat) : Int) then
      text.take (break_point.toNat + 1)
    else
      truncated ++ ['.', '.', '.']

/-- Sentence-ending punctuation, as the specification enumerates it:
period, question mark, exclamation mark. -/
def isSentenceEnd (c : Char) : Bool :=
  c = '.' || c = '?' || c = '!'

/-- The index of the rightmost sentence-ending punctuation character of a
character sequence, if any — the specification's "rightmost sentence-ending
punctuation inside that slice". -/
def lastPunctIdx : List Char → Option Nat
  | [] => none
  | a :: rest =>
      match lastPunctIdx rest with
      | some i => some (i + 1)
      | none => if isSentenceEnd a then some 0 else none

/-! ## Tool contract (`tools/base.py`) and the calculator (`tools/calculator.py`) -/

/-- A Python scalar appearing in tool payloads.  Numeric results of the
calculator are modelled in `ℚ` (its percentage branch computes
`(p/100) * n`, exact in `ℚ`; for the claimed input `15% of 200` the IEEE
double computation also yields exactly `30.0`). -/
inductive PyVal
  | str (s : String)
  | int (n : Int)
  | rat (q : ℚ)
deriving DecidableEq, Repr

/-- A parsed JSON argument object, as keyword arguments for a tool. -/
abbrev Args := List (String × PyVal)

/-- The `ToolResult` (`tools/base.py` lines 7-12). -/
structure ToolResult where
  success : Bool
  data : Option Args := none
  error : Option String := none
  message : Option String := none
deriving DecidableEq, Repr

/-- A registered tool instance: `execute(**kwargs)` either returns a
`ToolResult` or raises (`Except.error` carries `str(e)`). -/
structure Tool where
  execute : Args → Except String ToolResult

/-- Decimal digits to a natural number. -/
def natOfDigits (ds : List Char) : Nat :=
  ds.foldl (fun a c => a * 10 + (c.toNat - 48)) 0

/-- The rational value of an integer digit run with an optional fraction
digit run. -/
def digitsToRat (ds fs : List Char) : ℚ :=
  (natOfDigits ds : ℚ) + (natOfDigits fs : ℚ) / (10 ^ fs.length : ℚ)

/-- Parse a number per the regex piece `\d+(?:\.\d+)?`: a nonempty digit
run, optionally followed by `.` and a nonempty digit run (a bare trailing
`.` is left unconsumed, as the optional group then fails).  ASCII digits
suffice for the inputs at issue.  Returns the value and the rest. -/
def parseNumber (cs : List Char) : Option (ℚ × List Char) :=
  let ds := cs.takeWhile Char.isDigit
  let rest := cs.dropWhile Char.isDigit
  if ds.isEmpty then none
  else
    match rest with
    | '.' :: rest2 =>
        let fs := rest2.takeWhile Char.isDigit
        if fs.isEmpty then some (digitsToRat ds [], rest)
        else some (digitsToRat ds fs, rest2.dropWhile Char.isDigit)
    | _ => some (digitsToRat ds [], rest)

/-- The `re.match(r'(\d+(?:\.\d+)?)\s*%\s*of\s*(\d+(?:\.\d+)?)', expr)`
(`calculator.py` line 48): anchored at the start, trailing characters
allowed, `\s*` matching any whitespace run.  Returns the two captured
numbers. -/
def parsePercentOf (cs : List Char) : Option (ℚ × ℚ) :=
  match parseNumber cs with
  | none => none
  | some (p, r1) =>
      match r1.dropWhile Char.isWhitespace with
      | '%' :: r3 =>
          match r3.dropWhile Char.isWhitespace with
          | 'o' :: 'f' :: r5 =>
              match parseNumber (r5.dropWhile Char.isWhitespace) with
              | some (n, _) => some (p, n)
              | none => none
          | _ => none
      | _ => none

/-- Python `round(x, 4)` idealised on `ℚ`: round half to even at four
decimal places (the source applies it to an IEEE double; the claimed input
never reaches this branch). -/
def pyRound4 (q : ℚ) : ℚ :=
  let x := q * 10000
  let f := Int.floor x
  let r := x - (f : ℚ)
  let n : Int :=
    if r < 1/2 then f
    else if r > 1/2 then f + 1
    else if f % 2 = 0 then f else f + 1
  (n : ℚ) / 10000

/-- The word replacements of `calculator.py` lines 54-57, in source order.
The third replacement can never fire, because the second already rewrote
every occurrence of its first character. -/
def pyReplaceWords (s : String) : String :=
  ((((((s.replace "x" "*").replace "ร" "*").replace "รท" "/").replace
      "^" "**").replace "plus" "+").replace "minus" "-").replace "times" "*"
    |>.replace "divided by" "/"

/-- Format a numeric calculator result (`calculator.py` lines 70-74): an
integral float becomes an `int`, anything else is rounded to four decimal
places. -/
def formatCalcResult (q : ℚ) : PyVal :=
  if q.den = 1 then .int q.num else .rat (pyRound4 q)

/-- Render the formatted result for the human-readable message.  Integers
print as in Python; non-integers use the `ℚ` printer (that branch's string
content plays no role in any claim). -/
def showCalcResult : PyVal → String
  | .int n => toString n
  | .rat q => toString q
  | .str s => s

/-- Python `str.strip()`: remove leading and trailing whitespace. -/
def pyStrip (cs : List Char) : List Char :=
  ((cs.dropWhile Char.isWhitespace).reverse.dropWhile Char.isWhitespace).reverse

/-- The result the percentage branch produces (`calculator.py` lines 48-51
and 67-80): evaluate `(p/100) * n` and package it as a success result with
the original expression and the formatted value. -/
def percentResult (expression : String) (p n : ℚ) : ToolResult :=
  { success := true,
    data := some [("expression", .str expression),
                  ("result", formatCalcResult (p / 100 * n))],
    message := some (expression ++ " = " ++
      showCalcResult (formatCalcResult (p / 100 * n))) }

/-- The `CalculatorTool.execute` (`calculator.py` lines 39-85).  The expression
is lowercased and stripped; if the percentage regex matches, the expression
is rebuilt as `(p/100) * n` — a string of digits, parentheses, operators
and spaces, on which the word replacements are identities and the
character validation always passes — and evaluated (modelled exactly in
`ℚ`).  The non-percentage branch (word replacement, character validation,
`eval` over `SAFE_FUNCTIONS`, exception handling, lines 54-85) is
abstracted by the oracle `ev` applied to the replaced expression. -/
def calcExecute (ev : String → ToolResult) (expression : String) : ToolResult :=
  let expr := pyStrip (expression.toList.map Char.toLower)
  match parsePercentOf expr with
  | some (p, n) => percentResult expression p n
  | none => ev (pyReplaceWords (String.mk expr))

/-! ## Tool dispatch (`agent/core.py`, `_handle_tool_calls`) -/

/-- One requested tool call: correlation id, tool name, serialized
argument payload. -/
structure ToolCall where
  id : String
  name : String
  arguments : String
deriving DecidableEq, Repr

/-- The serialized content of one tool-role message: either the four-field
dump of an executed tool's `ToolResult` (`core.py` lines 205-211), or the
`{success: false, error}` dump synthesized for an exception or an unknown
tool (lines 212-222). -/
inductive ResultPayload
  | executed (r : ToolResult)
  | failure (error : String)
deriving DecidableEq, Repr

/-- The `success` field of a serialized result. -/
def ResultPayload.successFlag : ResultPayload → Bool
  | .executed r => r.success
  | .failure _ => false

/-- The processing of one tool call in the dispatch loop (`core.py` lines
191-222): parse the arguments (`json.loads`, malformed input modelled as
`none`, falling back to the empty argument dict), look the name up in the
registry dict; absent names synthesize `{success: false, error: "Unknown
tool: <name>"}`; raised tool faults become `{success: false, error:
str(e)}`. -/
def execOne (json_parse : String → Option Args)
    (registry : String → Option Tool) (tc : ToolCall) : ResultPayload :=
  let tool_args :=
    match json_parse tc.arguments with
    | some a => a
    | none => []
  match registry tc.name with
  | some tool =>
      match tool.execute tool_args with
      | .ok result => .executed result
      | .error e => .failure e
  | none => .failure ("Unknown tool: " ++ tc.name)

/-- The dispatch loop over a tool-call batch, in call-list order, collecting
for each call the pair (correlation id, serialized result) that the loop
appends as a tool-role message. -/
def runToolBatch (json_parse : String → Option Args)
    (registry : String → Option Tool) (calls : List ToolCall) :
    List (String × ResultPayload) :=
  calls.foldl (fun acc tc => acc ++ [(tc.id, execOne json_parse registry tc)]) []

/-! ## The agent (`agent/core.py`) -/

/-- A completion-service response: text content and/or requested tool
calls (`response.choices[0].message`). -/
structure LLMResp where
  content : Option String := none
  tool_calls : List ToolCall := []
deriving Repr

/-- One message dict sent to the completion service. -/
structure ChatMsg where
  role : String
  content : Option String := none
  tool_call_id : Option String := none
  tool_calls : List ToolCall := []
deriving DecidableEq, Repr

/-- The `ShortTermMemory.get_messages_for_llm` (`short_term.py` lines 70-89):
the active log formatted as chat dicts; tool messages keep their
correlation id. -/
def ShortTermMemory.get_messages_for_llm (stm : ShortTermMemory) : List ChatMsg :=
  match stm.current_conversation with
  | none => []
  | some conv =>
      conv.messages.map fun m =>
        if m.role = "tool" then
          { role := "tool", content := some m.content,
            tool_call_id := m.tool_call_id }
        else
          { role := m.role, content := some m.content }

/-- The dict `MemoryExtractor.extract_and_save` returns (`extractor.py`
lines 23-87): fact entries, preference entries, optional summary.  The
method catches every internal fault and returns the empty dict in that
case, so it is total. -/
structure ExtractResult where
  facts : List (String × String × String) := []
  preferences : List (String × String × String) := []
  summary : Option String := none
deriving Repr

/-- The agent's external collaborators and configuration, bundled as
oracles: the Supabase store, the tool registry builders, JSON codecs, the
prompt templates (their text plays no role in any claim), the completion
service, and the extractor's completion calls.  `now` is the current
clock tick stamped by `datetime.utcnow()`. -/
structure Env where
  now : Nat
  default_user_id : String
  max_response_length : Nat
  get_user : String → Option UserProfile
  create_user : UserProfile → UserProfile
  create_conversation : String → Option String → Conversation
  registry_for : String → String → Option Tool
  tool_definitions_for : String → List String
  json_parse : String → Option Args
  dumps : ResultPayload → String
  system_prompt_base : String
  with_context : String → String
  build_context : UserProfile → String → Except Unit String
  llm : List ChatMsg → List String → Except Unit LLMResp
  llm_followup : List ChatMsg → Except Unit LLMResp
  extract : Conversation → ExtractResult
  gen_summary : Conversation → Option String

/-- The agent's per-session mutable state (`core.py` lines 38-41 plus the
short-term memory): current user, conversation window, and the user the
tool registry/definitions were built for (`none` models the empty
registry/definition list of `__init__` and `end_session`). -/
structure AgentState where
  current_user : Option UserProfile := none
  short_term : ShortTermMemory
  tool_user : Option String := none
deriving DecidableEq, Repr

/-- The fresh profile `start_session` creates for an unseen user id
(`core.py` lines 59-64). -/
def newUserProfile (uid : String) : UserProfile :=
  { id := uid, name := "Friend", role := .adult, can_approve_orders := true }

/-- The `JarvisAgent.start_session` (`core.py` lines 45-76): resolve the user
id (`user_id or settings.default_user_id`), load the profile or create a
fresh one, open a new conversation (clearing the unsaved buffer), and
build the tool registry/definitions for that user.  Returns the resolved
profile and the updated state. -/
def start_session (env : Env) (a : AgentState)
    (user_id alexa_session_id : Option String) : UserProfile × AgentState :=
  let uid := pyOrStr user_id env.default_user_id
  let user :=
    match env.get_user uid with
    | some u => u
    | none => env.create_user (newUserProfile uid)
  (user,
    { a with
        current_user := some user,
        short_term :=
          { a.short_term with
              current_conversation := some (env.create_conversation uid alexa_session_id),
              message_buffer := [] },
        tool_user := some uid })

/-- The `JarvisAgent._build_system_prompt` (`core.py` lines 129-167): the base
prompt when no user is set; otherwise the context-augmented prompt, with
any fault during context assembly (fact/preference/summary reads and the
string templating, abstracted by `env.build_context`) falling back to the
base prompt. -/
def build_system_prompt (env : Env) (a : AgentState) (user_input : String) :
    String :=
  match a.current_user with
  | none => env.system_prompt_base
  | some u =>
      match env.build_context u user_input with
      | .ok ctx => env.with_context ctx
      | .error _ => env.system_prompt_base

/-- The tool definitions offered to the completion service: those built at
session start, none when idle. -/
def toolDefs (env : Env) (a : AgentState) : List String :=
  match a.tool_user with
  | some uid => env.tool_definitions_for uid
  | none => []

/-- The per-session tool registry as a lookup function (the dict built by
`get_tool_registry` at session start; empty when idle). -/
def agentRegistry (env : Env) (a : AgentState) : String → Option Tool :=
  match a.tool_user with
  | some uid => env.registry_for uid
  | none => fun _ => none

/-- The `JarvisAgent._handle_tool_calls` (`core.py` lines 169-249): record the
assistant message carrying the calls, process every call in order through
`execOne`, appending each serialized result to the outgoing message list
and to short-term memory, then issue the follow-up completion request; a
fault there yields the fixed fallback reply. -/
def handle_tool_calls (env : Env) (a : AgentState) (resp : LLMResp)
    (messages : List ChatMsg) : String × AgentState :=
  let registry := agentRegistry env a
  let messages := messages ++
    [{ role := "assistant", content := resp.content, tool_calls := resp.tool_calls }]
  let step := fun (acc : List ChatMsg × AgentState) (tc : ToolCall) =>
    let payload := execOne env.json_parse registry tc
    let result_content := env.dumps payload
    let st := (acc.2.short_term.add_message "tool" result_content
      (some tc.name) (some tc.id) env.now).2
    (acc.1 ++ [{ role := "tool", content := some result_content,
                 tool_call_id := some tc.id }],
      { acc.2 with short_term := st })
  let r := resp.tool_calls.foldl step (messages, a)
  match env.llm_followup r.1 with
  | .ok resp2 => (pyOrStr resp2.content "Done.", r.2)
  | .error _ => ("I completed the task, but had trouble summarizing it.", r.2)

/-- The body of `JarvisAgent.process` after the session check (`core.py`
lines 85-127): append the user message, build the prompt, call the
completion service (a fault yields the fixed apology), run the tool loop
if tool calls were returned, truncate for voice when over budget, append
the assistant message, return the reply. -/
def processBody (env : Env) (a : AgentState) (user_input : String) :
    String × AgentState :=
  let a := { a with
    short_term := (a.short_term.add_message "user" user_input none none env.now).2 }
  let system_prompt := build_system_prompt env a user_input
  let messages : List ChatMsg :=
    { role := "system", content := some system_prompt } ::
      a.short_term.get_messages_for_llm
  let step1 :=
    match env.llm messages (toolDefs env a) with
    | .error _ =>
        ("Sorry, I had trouble thinking about that. Could you try again?", a)
    | .ok resp =>
        if resp.tool_calls.isEmpty then
          (pyOrStr resp.content "I\x27m not sure how to respond to that.", a)
        else
          handle_tool_calls env a resp messages
  let reply := step1.1
  let reply :=
    if reply.length > env.max_response_length then
      String.mk (truncate_for_voice env.max_response_length reply.toList)
    else reply
  (reply,
    { step1.2 with
        short_term :=
          (step1.2.short_term.add_message "assistant" reply none none env.now).2 })

/-- The `JarvisAgent.process` (`core.py` lines 78-127): when no session is
active, `start_session()` is called first — with no arguments, hence for
the default user id — and processing continues on the updated state. -/
def process (env : Env) (a : AgentState) (user_input : String) :
    String × AgentState :=
  processBody env
    (if a.current_user.isNone then (start_session env a none none).2 else a)
    user_input

/-- Observable effects of `end_session`: whether the Extractor ran, the
conversation handed to the store, and the user whose conversation counter
was incremented. -/
structure EndTrace where
  extractor_invoked : Bool := false
  saved : Option Conversation := none
  counter_user : Option String := none
deriving DecidableEq, Repr

/-- The `JarvisAgent.end_session` (`core.py` lines 272-307): a no-op without an
active conversation.  Otherwise, when extraction is requested and the
conversation has at least 4 messages, run the Extractor; a falsy extracted
summary (absent or empty) triggers the best-effort summary fallback.  Then
persist and clear the conversation with whatever summary resulted,
increment the user's counter, and clear all session state. -/
def end_session (env : Env) (a : AgentState) (extract_learnings : Bool) :
    AgentState × EndTrace :=
  match a.short_term.current_conversation with
  | none => (a, {})
  | some conversation =>
      let attempt := extract_learnings && decide (4 ≤ conversation.messages.length)
      let summary : Option String :=
        if attempt then
          let ext := env.extract conversation
          if pyTruthyOptStr ext.summary then ext.summary
          else env.gen_summary conversation
        else none
      let ended := a.short_term.end_conversation summary env.now
      ({ current_user := none, short_term := ended.1, tool_user := none },
        { extractor_invoked := attempt, saved := ended.2,
          counter_user := a.current_user.map (fun u => u.id) })

/-! ## Concrete fixtures for witnesses -/

/-- A concrete environment: empty store, failing completion service,
trivial codecs.  Only used to instantiate universally quantified theorems
at a concrete input. -/
def testEnv : Env :=
  { now := 0, default_user_id := "default-family-user",
    max_response_length := 300,
    get_user := fun _ => none, create_user := fun p => p,
    create_conversation := fun uid sid => { user_id := uid, alexa_session_id := sid },
    registry_for := fun _ _ => none, tool_definitions_for := fun _ => [],
    json_parse := fun _ => none, dumps := fun _ => "",
    system_prompt_base := "", with_context := fun c => c,
    build_context := fun _ _ => .ok "",
    llm := fun _ _ => .error (), llm_followup := fun _ => .error (),
    extract := fun _ => {}, gen_summary := fun _ => none }

/-- An idle agent: no user, no conversation, no tools. -/
def idleAgent : AgentState :=
  { short_term := { max_messages := 20 } }

/-- A concrete empty conversation. -/
def sampleConv : Conversation :=
  { user_id := "u1" }

/-- An agent with an active empty conversation. -/
def activeAgent : AgentState :=
  { short_term := { max_messages := 20, current_conversation := some sampleConv } }

/-- A critical-importance fact sharing no word with the sample query. -/
def factCritical : UserFact :=
  { user_id := "u1", fact := "delta", category := "other",
    importance := .critical }

/-- A normal-importance fact sharing three words with the sample query. -/
def factShared : UserFact :=
  { user_id := "u1", fact := "alpha beta gamma", category := "other" }

/-! ## Theorems -/

/-- C7 counterexample: the source's role enumeration contains `maid`, not
`staff`: the string `"maid"` — outside the claimed closed set — validates,
while the claimed member `"staff"` is a validation failure. -/
theorem userRole_claimed_set_cex :
    userRoleOfString "maid" = some UserRole.maid ∧
    userRoleOfString "staff" = none := by
  decide

/-- C7 (amended): every `UserProfile` role round-trips through its string
value, and a role string validates exactly when it is one of `adult`,
`child`, `elderly`, `maid`, `guest`. -/
theorem userRole_closed_set :
    (∀ p : UserProfile, userRoleOfString p.role.value = some p.role) ∧
    (∀ s : String, (userRoleOfString s).isSome ↔
      (s = "adult" ∨ s = "child" ∨ s = "elderly" ∨ s = "maid" ∨ s = "guest")) := by
  constructor
  · intro p
    cases p.role <;> rfl
  · intro s
    unfold userRoleOfString
    split_ifs <;> simp_all

/-- C7 witness: the closed-set characterisation applied at a concrete
profile and a concrete role string. -/
theorem userRole_closed_set_witness :
    userRoleOfString ({ id := "u1", name := "Sam" } : UserProfile).role.value =
      some UserRole.adult ∧
    (userRoleOfString "guest").isSome := by
  exact ⟨userRole_closed_set.1 { id := "u1", name := "Sam" },
    (userRole_closed_set.2 "guest").mpr (by simp)⟩

/-- C8: on the expression `"15% of 200"` the calculator takes the
percentage branch regardless of how the generic-evaluation oracle behaves,
and returns a success result whose numeric result is the integer 30. -/
theorem calculator_percent_of (ev : String → ToolResult) :
    calcExecute ev "15% of 200" =
      { success := true,
        data := some [("expression", .str "15% of 200"), ("result", .int 30)],
        error := none,
        message := some "15% of 200 = 30" } := by
  have h1 : calcExecute ev "15% of 200" =
      percentResult "15% of 200" (digitsToRat ['1', '5'] [])
        (digitsToRat ['2', '0', '0'] []) := rfl
  have h15 : natOfDigits ['1', '5'] = 15 := by decide
  have h200 : natOfDigits ['2', '0', '0'] = 200 := by decide
  have h0 : natOfDigits [] = 0 := rfl
  have hp : digitsToRat ['1', '5'] [] = 15 := by
    unfold digitsToRat
    norm_num [h15, h0]
  have hn : digitsToRat ['2', '0', '0'] [] = 200 := by
    unfold digitsToRat
    norm_num [h200, h0]
  have hr : (15 : ℚ) / 100 * 200 = 30 := by norm_num
  have hf : formatCalcResult ((15 : ℚ) / 100 * 200) = .int 30 := by
    rw [hr]; simp [formatCalcResult]
  rw [h1, hp, hn]
  simp only [percentResult, hf, showCalcResult]
  decide

/-- C10: `add_message` with no active conversation builds and returns the
new `Message` but leaves the whole short-term state unchanged. -/
theorem add_message_idle_frame (stm : ShortTermMemory) (role content : String)
    (tn tid : Option String) (now : Nat)
    (h : stm.current_conversation = none) :
    stm.add_message role content tn tid now =
      ({ role := role, content := content, tool_name := tn,
         tool_call_id := tid, timestamp := now }, stm) := by
  unfold ShortTermMemory.add_message
  rw [h]

/-- C10 witness: the frame property at a concrete idle state. -/
theorem add_message_idle_frame_witness :
    ShortTermMemory.add_message { max_messages := 20 } "user" "hi" none none 7 =
      ({ role := "user", content := "hi", timestamp := 7 },
        { max_messages := 20 }) := by
  exact add_message_idle_frame { max_messages := 20 } "user" "hi" none none 7 rfl

/-- Fold-append accumulation is a map. -/
theorem foldl_append_map (f : α → β) (l : List α) (acc : List β) :
    l.foldl (fun acc tc => acc ++ [f tc]) acc = acc ++ l.map f := by
  induction l generalizing acc with
  | nil => simp
  | cons x xs ih => simp [ih]

/-- C5: the dispatch loop processes every call of a batch independently in
call-list order (so no call aborts the batch and each call gets exactly
one result, keyed by its own correlation id), and a call naming a tool
absent from the registry yields the synthesized unknown-tool failure
result. -/
theorem tool_batch_isolation (jp : String → Option Args)
    (registry : String → Option Tool) (calls : List ToolCall) :
    runToolBatch jp registry calls =
      calls.map (fun tc => (tc.id, execOne jp registry tc)) ∧
    (∀ tc : ToolCall, registry tc.name = none →
      execOne jp registry tc =
        .failure ("Unknown tool: " ++ tc.name)) := by
  constructor
  · exact foldl_append_map _ calls []
  · intro tc h
    unfold execOne
    rw [h]

/-- C5 witness: a two-call batch against an empty registry — the unknown
first call fails with the synthesized result and the second call is still
processed. -/
theorem tool_batch_isolation_witness :
    runToolBatch (fun _ => none) (fun _ => none)
        [⟨"c1", "ghost", ""⟩, ⟨"c2", "ghost2", ""⟩] =
      [("c1", ResultPayload.failure "Unknown tool: ghost"),
       ("c2", ResultPayload.failure "Unknown tool: ghost2")] ∧
    execOne (fun _ => none) (fun _ => none) ⟨"c1", "ghost", ""⟩ =
      ResultPayload.failure "Unknown tool: ghost" := by
  exact ⟨(tool_batch_isolation (fun _ => none) (fun _ => none) _).1,
    (tool_batch_isolation (fun _ => none) (fun _ => none) []).2
      ⟨"c1", "ghost", ""⟩ rfl⟩

/-- C6: `end_session` is a no-op when no conversation is active; with an
active conversation of fewer than 4 messages the Extractor is never
invoked and the conversation is persisted with `summary = none`
(regardless of the `extract_learnings` flag). -/
theorem end_session_short (env : Env) (a : AgentState) (el : Bool) :
    (a.short_term.current_conversation = none → end_session env a el = (a, {})) ∧
    (∀ conv : Conversation, a.short_term.current_conversation = some conv →
      conv.messages.length < 4 →
      (end_session env a el).2.extractor_invoked = false ∧
      (end_session env a el).2.saved =
        some { conv with ended_at := some env.now, summary := none }) := by
  constructor
  · intro h
    unfold end_session
    rw [h]
  · intro conv h hlen
    unfold end_session
    rw [h]
    have hd : decide (4 ≤ conv.messages.length) = false := by
      simp only [decide_eq_false_iff_not]
      omega
    unfold ShortTermMemory.end_conversation
    rw [h]
    simp [hd]

/-- C6 witness: the two scenarios at concrete states — an idle agent and
an agent with an empty active conversation. -/
theorem end_session_short_witness :
    end_session testEnv idleAgent true = (idleAgent, {}) ∧
    ((end_session testEnv activeAgent true).2.extractor_invoked = false ∧
     (end_session testEnv activeAgent true).2.saved =
       some { user_id := "u1", ended_at := some 0 }) := by
  exact ⟨(end_session_short testEnv idleAgent true).1 rfl,
    (end_session_short testEnv activeAgent true).2 sampleConv rfl (by decide)⟩

/-- C9: `process` on an idle agent (no current user) behaves exactly as
`process` after `start_session()` with no arguments; that call resolves
the default user id, loading the stored profile or creating the fresh
default one, and opens a fresh conversation for the default user.
(`process` is a total function of the state and the environment, so the
absence of a session alone can never make it fail.) -/
theorem process_autostarts (env : Env) (a : AgentState) (user_input : String)
    (h : a.current_user = none) :
    process env a user_input =
      process env (start_session env a none none).2 user_input ∧
    (start_session env a none none).2.current_user =
      some (start_session env a none none).1 ∧
    (start_session env a none none).1 =
      (match env.get_user env.default_user_id with
       | some u => u
       | none => env.create_user (newUserProfile env.default_user_id)) ∧
    (start_session env a none none).2.short_term.current_conversation =
      some (env.create_conversation env.default_user_id none) := by
  refine ⟨?_, ?_, ?_, ?_⟩
  · unfold process
    rw [h]
    simp [start_session]
  · simp [start_session]
  · simp [start_session, pyOrStr]
  · simp [start_session, pyOrStr]

/-- C9 witness: the auto-start behaviour at a concrete idle agent. -/
theorem process_autostarts_witness :
    process testEnv idleAgent "hello" =
      process testEnv (start_session testEnv idleAgent none none).2 "hello" ∧
    (start_session testEnv idleAgent none none).2.current_user =
      some (start_session testEnv idleAgent none none).1 := by
  exact ⟨(process_autostarts testEnv idleAgent "hello" rfl).1,
    (process_autostarts testEnv idleAgent "hello" rfl).2.1⟩

/-- The `rfind` returns at least `-1`. -/
theorem pyRfind_ge_neg_one (cs : List Char) (c : Char) : -1 ≤ pyRfind cs c := by
  induction cs with
  | nil => simp [pyRfind]
  | cons a rest ih =>
      unfold pyRfind
      split_ifs <;> omega

/-- The `rfind` returns an index below the length. -/
theorem pyRfind_lt_length (cs : List Char) (c : Char) :
    pyRfind cs c < (cs.length : Int) := by
  induction cs with
  | nil => simp [pyRfind]
  | cons a rest ih =>
      unfold pyRfind
      have := pyRfind_ge_neg_one rest c
      simp only [List.length_cons]
      split_ifs <;> push_cast <;> omega

/-- The max of the three `rfind` results is exactly the index of the
rightmost sentence-ending punctuation (`-1` when there is none). -/
theorem maxPunct_eq_lastPunctIdx (cs : List Char) :
    maxPunct cs =
      (match lastPunctIdx cs with
       | some i => (i : Int)
       | none => -1) := by
  induction cs with
  | nil => rfl
  | cons a rest ih =>
      have hP := pyRfind_ge_neg_one rest '.'
      have hQ := pyRfind_ge_neg_one rest '?'
      have hE := pyRfind_ge_neg_one rest '!'
      unfold maxPunct at ih ⊢
      unfold pyRfind lastPunctIdx
      rcases hl : lastPunctIdx rest with _ | i
      · rw [hl] at ih
        have hall := max_le_iff.mp ih.le
        have hqe := max_le_iff.mp hall.2
        have hP1 : pyRfind rest '.' = -1 := le_antisymm hall.1 hP
        have hQ1 : pyRfind rest '?' = -1 := le_antisymm hqe.1 hQ
        have hE1 : pyRfind rest '!' = -1 := le_antisymm hqe.2 hE
        rw [hP1, hQ1, hE1]
        by_cases h1 : a = '.' <;> by_cases h2 : a = '?' <;>
          by_cases h3 : a = '!' <;>
          simp_all [isSentenceEnd]
      · rw [hl] at ih
        have hall := max_le_iff.mp ih.le
        have hqe := max_le_iff.mp hall.2
        have hPi : pyRfind rest '.' ≤ (i : Int) := hall.1
        have hQi : pyRfind rest '?' ≤ (i : Int) := hqe.1
        have hEi : pyRfind rest '!' ≤ (i : Int) := hqe.2
        have hattain : pyRfind rest '.' = (i : Int) ∨
            pyRfind rest '?' = (i : Int) ∨ pyRfind rest '!' = (i : Int) := by
          have ih2 := ih
          rcases max_cases (pyRfind rest '.')
            (max (pyRfind rest '?') (pyRfind rest '!')) with ⟨h4, _⟩ | ⟨h4, _⟩
          · rw [h4] at ih2
            exact Or.inl ih2
          · rw [h4] at ih2
            rcases max_cases (pyRfind rest '?') (pyRfind rest '!') with
              ⟨h5, _⟩ | ⟨h5, _⟩
            · rw [h5] at ih2
              exact Or.inr (Or.inl ih2)
            · rw [h5] at ih2
              exact Or.inr (Or.inr ih2)
        have hnn : (0 : Int) ≤ (i : Int) := Int.natCast_nonneg i
        show max (if pyRfind rest '.' ≥ 0 then pyRfind rest '.' + 1
            else if a = '.' then 0 else -1)
          (max (if pyRfind rest '?' ≥ 0 then pyRfind rest '?' + 1
              else if a = '?' then 0 else -1)
            (if pyRfind rest '!' ≥ 0 then pyRfind rest '!' + 1
              else if a = '!' then 0 else -1)) = ((i + 1 : Nat) : Int)
        push_cast
        apply le_antisymm
        · apply max_le
          · split_ifs <;> omega
          · apply max_le <;> (split_ifs <;> omega)
        · rcases hattain with h | h | h
          · have hs : (if pyRfind rest '.' ≥ 0 then pyRfind rest '.' + 1
                else if a = '.' then 0 else -1) = (i : Int) + 1 := by
              split_ifs <;> omega
            rw [← hs]
            exact le_max_left _ _
          · have hs : (if pyRfind rest '?' ≥ 0 then pyRfind rest '?' + 1
                else if a = '?' then 0 else -1) = (i : Int) + 1 := by
              split_ifs <;> omega
            rw [← hs]
            exact le_trans (le_max_left _ _) (le_max_right _ _)
          · have hs : (if pyRfind rest '!' ≥ 0 then pyRfind rest '!' + 1
                else if a = '!' then 0 else -1) = (i : Int) + 1 := by
              split_ifs <;> omega
            rw [← hs]
            exact le_trans (le_max_right _ _) (le_max_right _ _)

/-- C4: truncation returns text of length at most the budget unchanged,
and its output never exceeds budget + 3 characters. -/
theorem truncate_idem_bounded (B : Nat) (text : List Char) :
    (text.length ≤ B → truncate_for_voice B text = text) ∧
    (truncate_for_voice B text).length ≤ B + 3 := by
  constructor
  · intro h
    simp only [truncate_for_voice]
    rw [if_pos h]
  · simp only [truncate_for_voice]
    split_ifs with h hbp
    · omega
    · have hlt : maxPunct (text.take B) < ((text.take B).length : Int) := by
        unfold maxPunct
        have h1 := pyRfind_lt_length (text.take B) '.'
        have h2 := pyRfind_lt_length (text.take B) '?'
        have h3 := pyRfind_lt_length (text.take B) '!'
        rcases max_cases (pyRfind (text.take B) '.')
          (max (pyRfind (text.take B) '?') (pyRfind (text.take B) '!')) with
            ⟨h4, _⟩ | ⟨h4, _⟩
        · omega
        · rw [h4]
          rcases max_cases (pyRfind (text.take B) '?')
            (pyRfind (text.take B) '!') with ⟨h5, _⟩ | ⟨h5, _⟩ <;> omega
      have hlen : (text.take B).length = B := by
        simp only [List.length_take]
        omega
      rw [hlen] at hlt
      have hge : (0 : Int) ≤ maxPunct (text.take B) := by
        have := Int.natCast_nonneg (B / 2)
        omega
      have htn : (maxPunct (text.take B)).toNat < B := by
        omega
      simp only [List.length_take]
      omega
    · simp only [List.length_append, List.length_take, List.length_cons,
        List.length_nil]
      omega

/-- C4 witness: a short text is returned unchanged and satisfies the
length bound. -/
theorem truncate_idem_bounded_witness :
    truncate_for_voice 5 ['h', 'i'] = ['h', 'i'] ∧
    (truncate_for_voice 5 ['h', 'i']).length ≤ 5 + 3 := by
  exact ⟨(truncate_idem_bounded 5 ['h', 'i']).1 (by decide),
    (truncate_idem_bounded 5 ['h', 'i']).2⟩

/-- C3 counterexample: for budget 4 and text `"ab.cd"` the rightmost
sentence punctuation inside the first 4 characters sits at index 2 — the
midpoint of the budget — yet the code appends an ellipsis instead of
cutting at the punctuation as the claim states, because its test is
strictly greater than `B // 2`. -/
theorem truncate_midpoint_cex :
    4 < (['a', 'b', '.', 'c', 'd'] : List Char).length ∧
    lastPunctIdx ((['a', 'b', '.', 'c', 'd'] : List Char).take 4) = some 2 ∧
    4 / 2 = 2 ∧
    truncate_for_voice 4 ['a', 'b', '.', 'c', 'd'] =
      ['a', 'b', '.', 'c', '.', '.', '.'] ∧
    truncate_for_voice 4 ['a', 'b', '.', 'c', 'd'] ≠ ['a', 'b', '.'] := by
  decide

/-- C3 (amended): for text longer than the budget, the output cuts at the
rightmost sentence-ending punctuation of the first `B` characters exactly
when its index is strictly greater than `B / 2` (so "at the midpoint" with
an even budget falls to the ellipsis case); otherwise it is the first `B`
characters with an ellipsis appended. -/
theorem truncate_break_strict (B : Nat) (text : List Char)
    (h : B < text.length) :
    truncate_for_voice B text =
      (match lastPunctIdx (text.take B) with
       | some i =>
           if B / 2 < i then text.take (i + 1)
           else text.take B ++ ['.', '.', '.']
       | none => text.take B ++ ['.', '.', '.']) := by
  simp only [truncate_for_voice]
  rw [if_neg (by omega)]
  rw [maxPunct_eq_lastPunctIdx]
  rcases hl : lastPunctIdx (text.take B) with _ | i
  · rw [if_neg (show ¬((-1 : Int) > ((B / 2 : Nat) : Int)) by
      have := Int.natCast_nonneg (B / 2)
      omega)]
  · by_cases hc : B / 2 < i
    · rw [if_pos (show ((i : Int)) > ((B / 2 : Nat) : Int) by exact_mod_cast hc)]
      simp [hc]
    · rw [if_neg (show ¬((i : Int) > ((B / 2 : Nat) : Int)) by exact_mod_cast hc)]
      simp [hc]

/-- C3 witness for the amended theorem: at budget 4 and text `"ab.cd"` the
amended rule predicts the ellipsis output, matching the code. -/
theorem truncate_break_strict_witness :
    4 < (['a', 'b', '.', 'c', 'd'] : List Char).length ∧
    truncate_for_voice 4 ['a', 'b', '.', 'c', 'd'] =
      ['a', 'b', '.', 'c', '.', '.', '.'] := by
  exact ⟨by decide, truncate_break_strict 4 ['a', 'b', '.', 'c', 'd'] (by decide)⟩

/-- The loop-accumulated score equals the specification's four-term sum. -/
theorem factScore_eq_specFactScore (now : Int) (q : String) (f : UserFact) :
    factScore now (pyWords q) f = specFactScore now q f := by
  unfold factScore specFactScore
  rcases hr : f.last_referenced with _ | ref <;>
    rcases hf : f.importance with _ | _ | _ | _ <;>
      simp [hf] <;> (try split_ifs) <;> omega

/-- C2: the fact-ranking pipeline is exactly the specification's pipeline
(score facts by shared distinct words, importance and recency; exclude
zero scores; stable descending sort; top `limit`), and on the
specification's concrete scenario — a critical fact with no shared word
against a normal fact with three shared words — the scores are 5 and 6
and the shared-word fact ranks first. -/
theorem relevant_facts_spec :
    (∀ (now : Int) (facts : List UserFact) (query : String) (limit : Nat),
      get_relevant_facts now facts query limit =
        specRelevantFacts now facts query limit) ∧
    get_relevant_facts 0 [factCritical, factShared] "alpha beta gamma" 10 =
      [factShared, factCritical] ∧
    specFactScore 0 "alpha beta gamma" factCritical = 5 ∧
    specFactScore 0 "alpha beta gamma" factShared = 6 := by
  refine ⟨?_, by decide, by decide, by decide⟩
  intro now facts query limit
  simp only [get_relevant_facts, specRelevantFacts]
  by_cases he : facts.isEmpty
  · rw [if_pos he]
    rw [List.isEmpty_iff.mp he]
    simp [sortByScoreDesc]
  · rw [if_neg he]
    have hfun : (fun f => (factScore now (pyWords query) f, f)) =
        (fun f => (specFactScore now query f, f)) := by
      funext f
      rw [factScore_eq_specFactScore]
    rw [hfun]
    have hfilter : (facts.map (fun f => (specFactScore now query f, f))).filter
          (fun p => 0 < p.1) =
        (facts.map (fun f => (specFactScore now query f, f))).filter
          (fun p => p.1 ≠ 0) := by
      apply List.filter_congr
      intro p _
      simp [Nat.pos_iff_ne_zero]
    rw [hfilter]

/-- Keeping the most recent `N` of an already-`N`-bounded log commutes
with further appends. -/
theorem lastN_lastN_append (N : Nat) (hN : 1 ≤ N) (l s : List Message) :
    lastN N (lastN N l ++ s) = lastN N (l ++ s) := by
  unfold lastN
  rcases le_or_lt l.length N with h | h
  · rw [Nat.sub_eq_zero_of_le h, List.drop_zero]
  · have hdl : (l.drop (l.length - N)).length = N := by
      rw [List.length_drop]
      omega
    simp only [List.length_append, hdl]
    rw [List.drop_append_eq_append_drop, List.drop_append_eq_append_drop,
      List.drop_drop, hdl]
    congr 2 <;> omega

/-- One `add_message` step on an active conversation with cap `N ≥ 1`
keeps exactly the most recent `N` of the appended log. -/
theorem add_message_some_log (N : Nat) (hN : 1 ≤ N) (conv : Conversation)
    (buf : List Message) (c : AddCall) :
    (ShortTermMemory.add_message ⟨N, some conv, buf⟩ c.role c.content
        c.tool_name c.tool_call_id c.now).2 =
      ⟨N,
        some { conv with
          messages := lastN N (conv.messages ++ [mkMessage c]) },
        buf ++ [mkMessage c]⟩ := by
  simp only [ShortTermMemory.add_message, mkMessage, pyLastSlice, lastN]
  split_ifs with h1 h2
  · exact absurd h2 (by omega)
  · rfl
  · rw [Nat.sub_eq_zero_of_le (by simp at h1 ⊢; omega), List.drop_zero]

/-- Running a call sequence against an active conversation whose log is
within the cap `N ≥ 1` leaves exactly the most recent `N` of the full
append sequence. -/
theorem runAdds_currentLog (N : Nat) (hN : 1 ≤ N) (calls : List AddCall) :
    ∀ (conv : Conversation) (buf : List Message),
      conv.messages.length ≤ N →
      (runAdds ⟨N, some conv, buf⟩ calls).currentLog =
        lastN N (conv.messages ++ calls.map mkMessage) := by
  induction calls with
  | nil =>
      intro conv buf hlen
      simp only [runAdds, List.foldl_nil, ShortTermMemory.currentLog,
        List.map_nil, List.append_nil, lastN]
      rw [Nat.sub_eq_zero_of_le hlen, List.drop_zero]
  | cons c cs ih =>
      intro conv buf hlen
      simp only [runAdds, List.foldl_cons] at ih ⊢
      rw [add_message_some_log N hN conv buf c]
      have hlen2 : ({ conv with
          messages := lastN N (conv.messages ++ [mkMessage c]) } :
            Conversation).messages.length ≤ N := by
        simp only [lastN, List.length_drop]
        omega
      rw [ih _ _ hlen2]
      show lastN N (lastN N (conv.messages ++ [mkMessage c]) ++ cs.map mkMessage) = _
      rw [lastN_lastN_append N hN, List.append_assoc]
      simp only [List.singleton_append, List.map_cons]

/-- C1 counterexample: with a configured maximum of 0 the trimming slice
`messages[-0:]` is the whole list, so one `add_message` call on an empty
conversation leaves a log of length 1 > 0. -/
theorem short_term_window_cex :
    ¬ (((runAdds ⟨0, some { user_id := "u1" }, []⟩
          [{ role := "user", content := "hi" }]).currentLog).length ≤ 0) := by
  decide

/-- C1 (amended): for a configured maximum `N ≥ 1` and any sequence of
`add_message` calls on a conversation started empty, the stored log never
exceeds `N` messages, and once the sequence overflows the log is exactly
the most recent `N` constructed messages in append order. -/
theorem short_term_window (N : Nat) (conv : Conversation)
    (calls : List AddCall) (hN : 1 ≤ N) (hempty : conv.messages = []) :
    ((runAdds ⟨N, some conv, []⟩ calls).currentLog).length ≤ N ∧
    (N < calls.length →
      (runAdds ⟨N, some conv, []⟩ calls).currentLog =
        (calls.map mkMessage).drop (calls.length - N)) := by
  have h := runAdds_currentLog N hN calls conv []
    (by rw [hempty]; simp)
  rw [hempty, List.nil_append] at h
  constructor
  · rw [h]
    unfold lastN
    rw [List.length_drop]
    omega
  · intro hlen
    rw [h]
    unfold lastN
    rw [List.length_map]

/-- C1 witness: cap 1, two calls — the log holds exactly the most recent
message. -/
theorem short_term_window_witness :
    ((runAdds ⟨1, some { user_id := "u1" }, []⟩
        [{ role := "user", content := "hi" },
         { role := "assistant", content := "yo" }]).currentLog).length ≤ 1 ∧
    (runAdds ⟨1, some { user_id := "u1" }, []⟩
        [{ role := "user", content := "hi" },
         { role := "assistant", content := "yo" }]).currentLog =
      List.drop 1 (List.map mkMessage
        [{ role := "user", content := "hi" },
         { role := "assistant", content := "yo" }]) := by
  exact ⟨(short_term_window 1 { user_id := "u1" } _ (by decide) rfl).1,
    (short_term_window 1 { user_id := "u1" } _ (by decide) rfl).2 (by decide)⟩

end Jarvis
